import Mathlib

/-!
Shallow embedding of the DynamicForms.FormValidation engine
(packages/form-validation-dotnet, `FormValidator` and its models) and proofs
about its behaviour.

Modelling conventions:
* `object?` values (native scalars, lists, string-keyed dictionaries, and
  wire-decoded JSON elements) are collapsed into one inductive `Value`;
  a C# `null` and a JSON null are both `Value.vnull` (they behave
  identically in every code path the theorems touch, since
  `JsonElementToObject` decodes JSON null to native null).
* The numeric domain (C# int / long / double) is modelled as `Int`; no
  theorem in this file depends on fractional or floating-point behaviour.
* The process-wide `ValidatorRegistry` singleton and the .NET `Regex`
  engine are threaded through explicitly as an environment `Env`:
  `registry` is the name-to-predicate lookup table, and `regexCompile`
  returns `none` exactly when `new Regex(pattern)` would throw (the
  `catch` branch of `MatchesPattern`).
-/

namespace DynamicForms

/-- Canonical submitted/configured value: C# `object?` after collapsing
native and wire-decoded (JsonElement) representations. -/
inductive Value where
  | vnull
  | vstr (s : String)
  | vnum (n : Int)
  | vbool (b : Bool)
  | vlist (elems : List Value)
  | vmap (entries : List (String × Value))

/-- Validation rule types (`ValidationRuleType` in ValidationRule.cs). -/
inductive ValidationRuleType where
  | required
  | email
  | minLength
  | maxLength
  | min
  | max
  | pattern
  | custom
deriving DecidableEq, Repr

/-- Comparison operators for validation conditions
(`ValidationConditionOperator` in ValidationRule.cs). -/
inductive ValidationConditionOperator where
  | equals
  | notEquals
  | isEmpty
  | isNotEmpty
deriving DecidableEq, Repr

/-- Condition that determines when a validation rule applies
(`ValidationCondition` in ValidationRule.cs). -/
structure ValidationCondition where
  field : String := ""
  operator : ValidationConditionOperator := .equals
  value : Value := .vnull

/-- Validation rule configuration (`ValidationRule` in ValidationRule.cs). -/
structure ValidationRule where
  type : ValidationRuleType
  value : Value := .vnull
  message : String := ""
  customValidatorName : Option String := none
  customValidatorParams : Option (List (String × Value)) := none
  condition : Option ValidationCondition := none

/-- Field types (the `FieldType` enum of the generated models; the variants
are exactly those the validator dispatches on plus the plain input kinds). -/
inductive FieldType where
  | text
  | email
  | number
  | textarea
  | select
  | checkbox
  | radio
  | date
  | dateRange
  | table
  | info
  | dataGrid
  | phone
  | formRef
deriving DecidableEq, Repr

/-- Table column configuration; the validator reads only `Name` and
`Validations` of a column. -/
structure TableColumnConfig where
  name : String
  validations : Option (List ValidationRule) := none

/-- Table field configuration; the validator reads only `Columns`. -/
structure TableConfig where
  columns : List TableColumnConfig

/-- DataGrid column configuration; the validator reads `Name`, `Computed`
and `Validations`. -/
structure DataGridColumnConfig where
  name : String
  computed : Option Bool := none
  validations : Option (List ValidationRule) := none

/-- DataGrid row label; the validator reads only `Id`. -/
structure DataGridRowLabel where
  id : String

/-- DataGrid field configuration; the validator reads `Columns` and
`RowLabels`. -/
structure DataGridConfig where
  columns : List DataGridColumnConfig
  rowLabels : List DataGridRowLabel

/-- Date-range sub-configuration; the validator reads only `ToDateOptional`
(a nullable bool, `?? false` at the use site). -/
structure DateRangeConfig where
  toDateOptional : Option Bool := none

/-- Form field configuration; the fields the validator consults. -/
structure FormFieldConfig where
  name : String
  type : FieldType := .text
  archived : Option Bool := none
  validations : Option (List ValidationRule) := none
  tableConfig : Option TableConfig := none
  dataGridConfig : Option DataGridConfig := none
  dateRangeConfig : Option DateRangeConfig := none

/-- Complete form configuration. -/
structure FormConfig where
  id : String := ""
  fields : List FormFieldConfig

/-- Submitted form data: `Dictionary<string, object?>` as an association
list with unique keys; an absent key reads as `null`. -/
abbrev FormData := List (String × Value)

/-- Custom validator signature (`CustomValidatorFn`):
`(value, parameters, fieldConfig, formData) => bool`. -/
abbrev CustomValidatorFn :=
  Value → Option (List (String × Value)) → FormFieldConfig → FormData → Bool

/-- Explicit environment standing for the process-wide
`ValidatorRegistry.Instance` and the .NET regex engine. -/
structure Env where
  registry : String → Option CustomValidatorFn
  regexCompile : String → Option (String → Bool)

/-- Field validation error (`FieldValidationError` in ValidationResult.cs). -/
structure FieldValidationError where
  field : String
  message : String
  rule : String
deriving DecidableEq, Repr

/-- Result of form validation (`ValidationResult` in ValidationResult.cs). -/
structure ValidationResult where
  valid : Bool
  errors : List FieldValidationError
deriving DecidableEq, Repr

/-- `ValidationResult.Success()`. -/
def ValidationResult.success : ValidationResult := ⟨true, []⟩

/-- `ValidationResult.Failure(errors)`. -/
def ValidationResult.failure (errors : List FieldValidationError) : ValidationResult :=
  ⟨false, errors⟩

/-- C# `string.IsNullOrWhiteSpace` on a non-null string: true iff every
character is whitespace (vacuously true for the empty string). -/
def isNullOrWhiteSpace (s : String) : Bool :=
  s.toList.all Char.isWhitespace

/-- `FormValidator.IsEmpty`: null is empty; a string is empty iff
null-or-whitespace; a list (IList / JSON array) is empty iff it has zero
elements; everything else (numbers, booleans, dictionaries) is non-empty. -/
def isEmpty : Value → Bool
  | .vnull => true
  | .vstr s => isNullOrWhiteSpace s
  | .vlist elems => elems.isEmpty
  | .vnum _ => false
  | .vbool _ => false
  | .vmap _ => false

/-- `FormValidator.GetStringValue`: strings pass through, null maps to
null, everything else is `value.ToString()` (numbers and booleans render
as in .NET; composite values render as their type name, a detail nothing
downstream depends on). -/
def getStringValue : Value → Option String
  | .vstr s => some s
  | .vnull => none
  | .vnum n => some (toString n)
  | .vbool b => some (if b then "True" else "False")
  | .vlist _ => some "System.Collections.Generic.List\x601[System.Object]"
  | .vmap _ => some "System.Collections.Generic.Dictionary\x602[System.String,System.Object]"

/-- `FormValidator.GetIntValue`: numbers pass through, integer-parsing
strings parse, everything else is null. -/
def getIntValue : Value → Option Int
  | .vnum n => some n
  | .vstr s => s.toInt?
  | _ => none

/-- `FormValidator.GetDoubleValue`, with the numeric domain modelled as
`Int` (see header note). -/
def getDoubleValue : Value → Option Int
  | .vnum n => some n
  | .vstr s => s.toInt?
  | _ => none

/-- Character class of the local part of `EmailRegex`:
one of a-z A-Z 0-9 . _ % + - . -/
def emailLocalChar (c : Char) : Bool :=
  c.isAlpha || c.isDigit || c = '.' || c = '_' || c = '%' || c = '+' || c = '-'

/-- Character class of the domain part of `EmailRegex`:
one of a-z A-Z 0-9 . - . -/
def emailDomainChar (c : Char) : Bool :=
  c.isAlpha || c.isDigit || c = '.' || c = '-'

/-- Split a character list at the first occurrence of `c`; `none` when `c`
does not occur. -/
def splitFirst (c : Char) : List Char → Option (List Char × List Char)
  | [] => none
  | x :: xs =>
    if x = c then some ([], xs)
    else
      match splitFirst c xs with
      | some (l, r) => some (x :: l, r)
      | none => none

/-- Whether `cs` decomposes as `domain ++ dot ++ tld` with a non-empty
domain over the domain charset and a trailing all-letter TLD of length at
least two: the part of `EmailRegex` after the at-sign. -/
def emailDomainMatches (cs : List Char) : Bool :=
  (List.range cs.length).any fun i =>
    let d := cs.take i
    match cs.drop i with
    | '.' :: t => !d.isEmpty && d.all emailDomainChar && decide (2 ≤ t.length) && t.all Char.isAlpha
    | _ => false

/-- `EmailRegex.IsMatch`: the anchored pattern
local+ at domain+ dot letter-letter+ over the ASCII charsets above. Since
no charset contains the at-sign, a match forces the split at the first
at-sign. -/
def emailRegexMatches (s : String) : Bool :=
  match splitFirst '@' s.toList with
  | none => false
  | some (l, rest) => !l.isEmpty && l.all emailLocalChar && emailDomainMatches rest

/-- `FormValidator.IsValidEmail`. -/
def isValidEmail (value : Value) : Bool :=
  match getStringValue value with
  | none => false
  | some str => emailRegexMatches str

/-- `FormValidator.HasMinLength`. -/
def hasMinLength (value minValue : Value) : Bool :=
  match getStringValue value with
  | none => true
  | some str =>
    match getIntValue minValue with
    | none => true
    | some min => decide (min ≤ (str.length : Int))

/-- `FormValidator.HasMaxLength`. -/
def hasMaxLength (value maxValue : Value) : Bool :=
  match getStringValue value with
  | none => true
  | some str =>
    match getIntValue maxValue with
    | none => true
    | some max => decide ((str.length : Int) ≤ max)

/-- `FormValidator.IsAtLeast`. -/
def isAtLeast (value minValue : Value) : Bool :=
  match getDoubleValue value, getDoubleValue minValue with
  | some num, some min => decide (min ≤ num)
  | _, _ => true

/-- `FormValidator.IsAtMost`. -/
def isAtMost (value maxValue : Value) : Bool :=
  match getDoubleValue value, getDoubleValue maxValue with
  | some num, some max => decide (num ≤ max)
  | _, _ => true

/-- `FormValidator.MatchesPattern`: null value or null pattern passes; a
pattern whose compilation throws passes (fail-open); otherwise the regex
verdict. -/
def matchesPattern (env : Env) (value patternValue : Value) : Bool :=
  match getStringValue value, getStringValue patternValue with
  | some str, some patternStr =>
    match env.regexCompile patternStr with
    | some matcher => matcher str
    | none => true
  | _, _ => true

/-- `FormValidator.ValidateCustom`: a null-or-empty validator name passes;
an unregistered name passes (fail-open); otherwise the registered
predicate decides. -/
def validateCustom (env : Env) (value : Value) (rule : ValidationRule)
    (fieldConfig : FormFieldConfig) (formData : FormData) : Bool :=
  match rule.customValidatorName with
  | none => true
  | some name =>
    if name = "" then true
    else
      match env.registry name with
      | none => true
      | some validator => validator value rule.customValidatorParams fieldConfig formData

/-- `FormValidator.ValidateRule`: dispatch on the rule type. Note the
source never consults `rule.condition` here or anywhere else. -/
def validateRule (env : Env) (value : Value) (rule : ValidationRule)
    (fieldConfig : FormFieldConfig) (formData : FormData) : Bool :=
  match rule.type with
  | .required => !isEmpty value
  | .email => isEmpty value || isValidEmail value
  | .minLength => isEmpty value || hasMinLength value rule.value
  | .maxLength => isEmpty value || hasMaxLength value rule.value
  | .min => isEmpty value || isAtLeast value rule.value
  | .max => isEmpty value || isAtMost value rule.value
  | .pattern => isEmpty value || matchesPattern env value rule.value
  | .custom => validateCustom env value rule fieldConfig formData

/-- `rule.Type.ToString().ToLowerInvariant()`: the enum member name
lowercased. -/
def ruleTypeName : ValidationRuleType → String
  | .required => "required"
  | .email => "email"
  | .minLength => "minlength"
  | .maxLength => "maxlength"
  | .min => "min"
  | .max => "max"
  | .pattern => "pattern"
  | .custom => "custom"

/-- `FormValidator.ValidateField`: evaluate every rule of the field against
the value, collecting one error per failing rule at `fieldPath` (the
field's own name when no explicit path is given). -/
def validateField (env : Env) (field : FormFieldConfig) (value : Value)
    (formData : FormData) (fieldPath : Option String) : List FieldValidationError :=
  let path := fieldPath.getD field.name
  match field.validations with
  | none => []
  | some rules =>
    rules.filterMap fun rule =>
      if validateRule env value rule field formData then none
      else some ⟨path, rule.message, ruleTypeName rule.type⟩

/-- `FormValidator.GetArrayValue`: a list passes through; a dictionary is
`IEnumerable` of key-value pairs, so it converts to a list of pairs (a
pair is modelled as a two-element list, which — like a .NET
`KeyValuePair` — is not a row dictionary and is skipped by the table
walker); strings and scalars are not arrays. -/
def getArrayValue : Value → Option (List Value)
  | .vlist elems => some elems
  | .vmap entries => some (entries.map fun e => Value.vlist [Value.vstr e.1, e.2])
  | _ => none

/-- `FormValidator.GetDictionaryValue`: only a string-keyed map (native
dictionary or JSON object) converts; everything else is null. -/
def getDictionaryValue : Value → Option (List (String × Value))
  | .vmap entries => some entries
  | _ => none

/-- One row of `FormValidator.ValidateTableField`: a non-dictionary row is
skipped; a row whose every column value is empty is skipped; otherwise
each column's rules run against the cell value, with path
`field[rowIndex].column` and a fresh single-name field config passed to
the rule (as the `tempField` in the source). -/
def tableRowErrors (env : Env) (field : FormFieldConfig) (config : TableConfig)
    (formData : FormData) (rowIndex : Nat) (row : Value) : List FieldValidationError :=
  match row with
  | .vmap rowMap =>
    let isEmptyRow := config.columns.all fun col =>
      isEmpty ((rowMap.lookup col.name).getD Value.vnull)
    if isEmptyRow then []
    else
      (config.columns.map fun column =>
        match column.validations with
        | none => []
        | some rules =>
          let cellValue := (rowMap.lookup column.name).getD Value.vnull
          let cellPath := field.name ++ "[" ++ toString rowIndex ++ "]." ++ column.name
          let tempField : FormFieldConfig := { name := column.name }
          rules.filterMap fun rule =>
            if validateRule env cellValue rule tempField formData then none
            else some ⟨cellPath, rule.message, ruleTypeName rule.type⟩).flatten
  | _ => []

/-- `FormValidator.ValidateTableField`: no table config or a value that is
not interpretable as an array yields no errors; otherwise walk the rows
with their indices. -/
def validateTableField (env : Env) (field : FormFieldConfig) (value : Value)
    (formData : FormData) : List FieldValidationError :=
  match field.tableConfig with
  | none => []
  | some config =>
    match getArrayValue value with
    | none => []
    | some rows =>
      (rows.enum.map fun ir => tableRowErrors env field config formData ir.1 ir.2).flatten

/-- `FormValidator.ValidateDataGridField`: no grid config or a value that
is not interpretable as a dictionary yields no errors; otherwise for each
declared row label whose row data is a dictionary, each non-computed
column's rules run against `data[rowId][column]`, with path
`field.rowId.column`. -/
def validateDataGridField (env : Env) (field : FormFieldConfig) (value : Value)
    (formData : FormData) : List FieldValidationError :=
  match field.dataGridConfig with
  | none => []
  | some config =>
    match getDictionaryValue value with
    | none => []
    | some gridData =>
      (config.rowLabels.map fun rowLabel =>
        match getDictionaryValue ((gridData.lookup rowLabel.id).getD Value.vnull) with
        | none => []
        | some rowData =>
          (config.columns.map fun column =>
            if column.computed = some true then []
            else
              match column.validations with
              | none => []
              | some rules =>
                let cellValue := (rowData.lookup column.name).getD Value.vnull
                let cellPath := field.name ++ "." ++ rowLabel.id ++ "." ++ column.name
                let tempField : FormFieldConfig := { name := column.name }
                rules.filterMap fun rule =>
                  if validateRule env cellValue rule tempField formData then none
                  else some ⟨cellPath, rule.message, ruleTypeName rule.type⟩).flatten).flatten

/-- Whether a rule is the `required` rule. -/
def isRequiredRule (r : ValidationRule) : Bool :=
  decide (r.type = ValidationRuleType.required)

/-- The message of the first required rule, with the source's
`FirstOrDefault(...)?.Message ?? "This field is required"` fallback. -/
def requiredMessage (validations : List ValidationRule) : String :=
  match validations.find? isRequiredRule with
  | some r => r.message
  | none => "This field is required"

/-- `FormValidator.ValidatePhoneField`: the field's own `required` rule (if
any) fires at the field's own path when the composite has no non-empty
`number` sub-value; every non-required rule runs against the `number`
sub-value, and only when it is present and non-empty. -/
def validatePhoneField (env : Env) (field : FormFieldConfig) (value : Value)
    (formData : FormData) : List FieldValidationError :=
  match field.validations with
  | none => []
  | some validations =>
    let phoneData := getDictionaryValue value
    let hasRequired := validations.any isRequiredRule
    let requiredErrors :=
      if hasRequired then
        let isPhoneEmpty :=
          match phoneData with
          | none => true
          | some m =>
            match m.lookup "number" with
            | none => true
            | some num => isEmpty num
        if isPhoneEmpty then
          [⟨field.name, requiredMessage validations, "required"⟩]
        else []
      else []
    let numberErrors :=
      match phoneData with
      | none => []
      | some m =>
        match m.lookup "number" with
        | none => []
        | some phoneNumber =>
          if isEmpty phoneNumber then []
          else
            (validations.filter fun r => !isRequiredRule r).filterMap fun rule =>
              if validateRule env phoneNumber rule field formData then none
              else some ⟨field.name, rule.message, ruleTypeName rule.type⟩
    requiredErrors ++ numberErrors

/-- `FormValidator.ValidateDateRangeField`: only the `required` rule (if
present) can fire; it fails when `fromDate` is empty, or when `toDate`
is empty and the range config does not mark it optional. -/
def validateDateRangeField (env : Env) (field : FormFieldConfig) (value : Value)
    (formData : FormData) : List FieldValidationError :=
  match field.validations with
  | none => []
  | some validations =>
    let dateRangeData := getDictionaryValue value
    let toDateOptional := (field.dateRangeConfig.bind DateRangeConfig.toDateOptional).getD false
    let hasRequired := validations.any isRequiredRule
    if hasRequired then
      let fromDate :=
        match dateRangeData with
        | some m => (m.lookup "fromDate").getD Value.vnull
        | none => Value.vnull
      let toDate :=
        match dateRangeData with
        | some m => (m.lookup "toDate").getD Value.vnull
        | none => Value.vnull
      let fromEmpty := dateRangeData.isNone || isEmpty fromDate
      let toEmpty := isEmpty toDate
      if fromEmpty || (!toDateOptional && toEmpty) then
        [⟨field.name, requiredMessage validations, "required"⟩]
      else []
    else []

/-- The field-type switch inside `FormValidator.ValidateForm`: special
strategies for table, datagrid, phone and date-range fields; plain
per-rule evaluation for every other kind. -/
def validateFieldDispatch (env : Env) (field : FormFieldConfig) (value : Value)
    (data : FormData) : List FieldValidationError :=
  match field.type with
  | .table => validateTableField env field value data
  | .dataGrid => validateDataGridField env field value data
  | .phone => validatePhoneField env field value data
  | .dateRange => validateDateRangeField env field value data
  | _ => validateField env field value data none

/-- `FormValidator.ValidateForm`: walk the fields in declared order,
skipping archived fields and the non-input kinds (info, form-reference),
look the field's value up in the submitted data (absent reads as null),
dispatch by field kind and aggregate the errors. -/
def validateForm (env : Env) (config : FormConfig) (data : FormData) : ValidationResult :=
  let errors :=
    (config.fields.map fun field =>
      if field.archived = some true then []
      else if field.type = FieldType.info ∨ field.type = FieldType.formRef then []
      else validateFieldDispatch env field ((data.lookup field.name).getD Value.vnull) data).flatten
  if errors.isEmpty then ValidationResult.success
  else ValidationResult.failure errors

/-- `FormValidator.ValidateFieldValue`: validate one field value in
isolation via the plain per-rule path (`ValidateField`), with absent form
data treated as an empty dictionary. -/
def validateFieldValue (env : Env) (fieldConfig : FormFieldConfig) (value : Value)
    (formData : Option FormData) : ValidationResult :=
  let errors := validateField env fieldConfig value (formData.getD []) none
  if errors.isEmpty then ValidationResult.success
  else ValidationResult.failure errors

/-- A closed environment with nothing registered and no compilable
pattern, for concrete evaluations. -/
def env0 : Env :=
  { registry := fun _ => none, regexCompile := fun _ => none }

/-- The `number` sub-value of a phone composite: the value under the
`number` key when the composite is a dictionary carrying one. -/
def phoneNumberValue (value : Value) : Option Value :=
  (getDictionaryValue value).bind fun m => m.lookup "number"

/-- The sub-value of a date-range composite under `key`, null when the
composite is not a dictionary or lacks the key. -/
def dateRangeSub (value : Value) (key : String) : Value :=
  match getDictionaryValue value with
  | some m => (m.lookup key).getD Value.vnull
  | none => Value.vnull

/-- Emptiness of the `fromDate` half of a date-range composite (a
non-dictionary composite counts as empty). -/
def dateRangeFromEmpty (value : Value) : Bool :=
  (getDictionaryValue value).isNone || isEmpty (dateRangeSub value "fromDate")

/-- Emptiness of the `toDate` half of a date-range composite. -/
def dateRangeToEmpty (value : Value) : Bool :=
  isEmpty (dateRangeSub value "toDate")

/-! Concrete scenario configurations used by the theorems below. -/

/-- A required rule on `income`, gated (per its configuration) on
`employmentType` equalling `"employed"`. -/
def incomeRule : ValidationRule :=
  { type := .required, message := "Income is required",
    condition := some { field := "employmentType", operator := .equals,
                        value := .vstr "employed" } }

/-- Two-field form: a free-text `employmentType` and an `income` field
carrying the conditional required rule. -/
def c1Config : FormConfig :=
  { id := "c1", fields := [
      { name := "employmentType", type := .text },
      { name := "income", type := .number, validations := some [incomeRule] } ] }

/-- A minimal field configuration with no validations and no sub-configs. -/
def bareField : FormFieldConfig :=
  { name := "f" }

/-- A plain required rule. -/
def requiredRule : ValidationRule :=
  { type := .required, message := "m" }

theorem bareField_tableConfig : bareField.tableConfig = none := rfl

/-- C1: the spec (and the `ValidationRule.Condition` documentation) demand
that a required rule conditioned on `employmentType = "employed"` produce
no error when `employmentType` differs from `"employed"`; the engine
ignores rule conditions entirely, so validating
`employmentType = "unemployed"` with `income` absent still produces the
required error on `income`. -/
theorem c1_condition_ignored_required_fires :
    validateForm env0 c1Config [("employmentType", Value.vstr "unemployed")] =
      ValidationResult.failure [⟨"income", "Income is required", "required"⟩] := by
  rfl

/-- C3: the `required` rule fails exactly when the emptiness predicate
holds, and that predicate classifies null as empty, a string as empty iff
it is empty or all-whitespace, a list as empty iff it has zero elements,
and a keyed map as never empty. -/
theorem c3_required_fails_iff_empty (env : Env) (v : Value) (rule : ValidationRule)
    (field : FormFieldConfig) (fd : FormData) (h : rule.type = .required) :
    (validateRule env v rule field fd = false ↔ isEmpty v = true)
    ∧ isEmpty Value.vnull = true
    ∧ (∀ s, isEmpty (Value.vstr s) = true ↔ s = "" ∨ ∀ c ∈ s.toList, c.isWhitespace = true)
    ∧ (∀ elems, isEmpty (Value.vlist elems) = true ↔ elems = [])
    ∧ ∀ entries, isEmpty (Value.vmap entries) = false := by
  refine ⟨?_, rfl, ?_, ?_, fun _ => rfl⟩
  · simp [validateRule, h]
  · intro s
    simp only [isEmpty, isNullOrWhiteSpace, List.all_eq_true]
    constructor
    · exact fun h' => Or.inr h'
    · rintro (rfl | h')
      · simp
      · exact h'
  · intro elems
    simp [isEmpty]

/-- Witness for C3 at the all-whitespace string. -/
theorem c3_required_fails_iff_empty_witness :
    validateRule env0 (Value.vstr " ") requiredRule bareField [] = false := by
  have h := c3_required_fails_iff_empty env0 (Value.vstr " ") requiredRule bareField [] rfl
  exact h.1.mpr (by decide)

/-- C4: on an empty value, every built-in rule other than `required` and
`custom` (email, minLength, maxLength, min, max, pattern) passes,
whatever comparison value the rule is configured with. -/
theorem c4_nonrequired_rules_pass_on_empty (env : Env) (v : Value) (rule : ValidationRule)
    (field : FormFieldConfig) (fd : FormData)
    (hempty : isEmpty v = true)
    (htype : rule.type ∈ [ValidationRuleType.email, .minLength, .maxLength, .min,
      .max, .pattern]) :
    validateRule env v rule field fd = true := by
  simp only [List.mem_cons, List.not_mem_nil, or_false] at htype
  rcases htype with h | h | h | h | h | h <;> simp [validateRule, h, hempty]

/-- Witness for C4 at an email rule on the empty string. -/
theorem c4_nonrequired_rules_pass_on_empty_witness :
    validateRule env0 (Value.vstr "")
      { type := ValidationRuleType.email, message := "m" } bareField [] = true :=
  c4_nonrequired_rules_pass_on_empty env0 (Value.vstr "")
    { type := ValidationRuleType.email, message := "m" } bareField []
    (by decide) (by decide)

/-- C9: booleans and numbers are never empty, so a required rule passes on
`false` and on `0` (an unchecked required checkbox validates as
satisfied). -/
theorem c9_bool_and_number_never_empty :
    (∀ b, isEmpty (Value.vbool b) = false)
    ∧ (∀ n, isEmpty (Value.vnum n) = false)
    ∧ ∀ env rule field fd, rule.type = ValidationRuleType.required →
        validateRule env (Value.vbool false) rule field fd = true ∧
        validateRule env (Value.vnum 0) rule field fd = true := by
  refine ⟨fun _ => rfl, fun _ => rfl, ?_⟩
  intro env rule field fd h
  constructor <;> simp [validateRule, h, isEmpty]

/-- Witness for C9 at a required rule on `false`. -/
theorem c9_bool_and_number_never_empty_witness :
    validateRule env0 (Value.vbool false) requiredRule bareField [] = true :=
  (c9_bool_and_number_never_empty.2.2 env0 requiredRule bareField [] rfl).1

/-- C10: a table field whose table config is absent or whose value is not
interpretable as an array, and a datagrid field whose grid config is
absent or whose value is not interpretable as a dictionary, yield no
errors regardless of the rules configured on their columns. -/
theorem c10_malformed_composite_passes (env : Env) (field : FormFieldConfig)
    (value : Value) (fd : FormData) :
    ((field.tableConfig = none ∨ getArrayValue value = none) →
      validateTableField env field value fd = [])
    ∧ ((field.dataGridConfig = none ∨ getDictionaryValue value = none) →
      validateDataGridField env field value fd = []) := by
  constructor
  · rintro (h | h)
    · simp [validateTableField, h]
    · cases hc : field.tableConfig <;> simp [validateTableField, h, hc]
  · rintro (h | h)
    · simp [validateDataGridField, h]
    · cases hc : field.dataGridConfig <;> simp [validateDataGridField, h, hc]

/-- Witness for C10 at a rule-free field with no table config. -/
theorem c10_malformed_composite_passes_witness :
    validateTableField env0 bareField Value.vnull [] = [] :=
  (c10_malformed_composite_passes env0 bareField Value.vnull []).1
    (Or.inl bareField_tableConfig)

/-- Two-column table configuration: column `a` without rules, column `b`
with a required rule. -/
def c5TableConfig : TableConfig :=
  { columns := [
      { name := "a" },
      { name := "b", validations := some [{ type := .required, message := "b required" }] } ] }

/-- A table field named `field` carrying `c5TableConfig`. -/
def c5Field : FormFieldConfig :=
  { name := "field", type := .table, tableConfig := some c5TableConfig }

/-- Row list `[ (a: "", b: ""), (a: "x", b: "") ]`. -/
def c5Value : Value :=
  .vlist [
    .vmap [("a", .vstr ""), ("b", .vstr "")],
    .vmap [("a", .vstr "x"), ("b", .vstr "")] ]

/-- C5: validating the table rows `[(a:"",b:""), (a:"x",b:"")]` against a
required rule on column `b` yields exactly one error with path
`field[1].b`; in general a row whose every column value is empty
contributes no errors at all. -/
theorem c5_table_row_skip :
    validateTableField env0 c5Field c5Value [] =
      [⟨"field[1].b", "b required", "required"⟩]
    ∧ ∀ (env : Env) (field : FormFieldConfig) (config : TableConfig) (fd : FormData)
        (i : Nat) (entries : List (String × Value)),
        (config.columns.all fun col =>
          isEmpty ((entries.lookup col.name).getD Value.vnull)) = true →
        tableRowErrors env field config fd i (Value.vmap entries) = [] := by
  constructor
  · rfl
  · intro env field config fd i entries hall
    simp [tableRowErrors, hall]

/-- Witness for C5's row-skip clause at the all-empty row. -/
theorem c5_table_row_skip_witness :
    tableRowErrors env0 c5Field c5TableConfig [] 0
      (Value.vmap [("a", Value.vstr ""), ("b", Value.vstr "")]) = [] :=
  c5_table_row_skip.2 env0 c5Field c5TableConfig [] 0
    [("a", Value.vstr ""), ("b", Value.vstr "")] (by decide)

/-- A phone field with one required rule. -/
def c2PhoneField : FormFieldConfig :=
  { name := "phone", type := .phone,
    validations := some [{ type := .required, message := "req" }] }

/-- The composite phone value with an empty number sub-value. -/
def c2PhoneValue : Value := .vmap [("number", .vstr "")]

/-- Form data binding the phone field to `c2PhoneValue`. -/
def c2Data : FormData := [("phone", c2PhoneValue)]

/-- Counterexample to C2: on a phone field with value `(number: "")`,
`validateFieldValue` runs the plain per-rule path (the composite map is
non-empty, so `required` passes), while `validateForm` on the one-field
form dispatches to the phone strategy and reports the required error —
the two results differ. -/
theorem c2_phone_field_counterexample :
    validateFieldValue env0 c2PhoneField c2PhoneValue (some c2Data) =
      ValidationResult.success
    ∧ validateForm env0 { id := "f", fields := [c2PhoneField] } c2Data =
        ValidationResult.failure [⟨"phone", "req", "required"⟩]
    ∧ validateFieldValue env0 c2PhoneField c2PhoneValue (some c2Data) ≠
        validateForm env0 { id := "f", fields := [c2PhoneField] } c2Data := by
  refine ⟨rfl, rfl, ?_⟩
  decide

/-- C2 (amended): `validateFieldValue` always runs the plain per-rule
path, so it coincides with `validateForm` on the corresponding one-field
form exactly for fields that are not archived and whose kind is none of
table, datagrid, phone, date-range, info, form-reference; an omitted
`formData` behaves as the empty map. -/
theorem c2_validateFieldValue_plain_agreement (env : Env) (fc : FormFieldConfig)
    (v : Value) (d : FormData) (i : String)
    (h₁ : fc.archived ≠ some true)
    (h₂ : fc.type ≠ .table) (h₃ : fc.type ≠ .dataGrid) (h₄ : fc.type ≠ .phone)
    (h₅ : fc.type ≠ .dateRange) (h₆ : fc.type ≠ .info) (h₇ : fc.type ≠ .formRef)
    (h₈ : d.lookup fc.name = some v) :
    validateFieldValue env fc v (some d) = validateForm env { id := i, fields := [fc] } d
    ∧ ∀ v', validateFieldValue env fc v' none = validateFieldValue env fc v' (some []) := by
  constructor
  · have hd : validateFieldDispatch env fc v d = validateField env fc v d none := by
      cases htype : fc.type <;> simp_all [validateFieldDispatch]
    simp [validateFieldValue, validateForm, h₁, h₆, h₇, h₈, hd]
  · intro v'
    rfl

/-- A plain text field with one required rule, for the C2 witness. -/
def c2TextField : FormFieldConfig :=
  { name := "t", type := .text, validations := some [requiredRule] }

/-- Witness for C2's amended agreement at a plain text field with a
required rule and an empty submitted string. -/
theorem c2_validateFieldValue_plain_agreement_witness :
    validateFieldValue env0 c2TextField (Value.vstr "")
        (some [("t", Value.vstr "")]) =
      validateForm env0 { id := "w", fields := [c2TextField] }
        [("t", Value.vstr "")] :=
  (c2_validateFieldValue_plain_agreement env0 c2TextField
    (Value.vstr "") [("t", Value.vstr "")] "w"
    (by decide) (by decide) (by decide) (by decide) (by decide) (by decide)
    (by decide) rfl).1

/-- A custom rule referencing an unregistered validator name. -/
def c8CustomRule : ValidationRule :=
  { type := .custom, message := "m", customValidatorName := some "nope" }

/-- C8: a custom rule whose validator name is absent or unregistered
passes for every input, a pattern rule whose pattern source does not
compile passes for every input, and the per-field error list is the
independent union of the rules' verdicts (a failing rule never suppresses
its siblings). -/
theorem c8_misconfigured_rules_fail_open :
    (∀ (env : Env) (v : Value) (rule : ValidationRule) (field : FormFieldConfig)
        (fd : FormData), rule.type = ValidationRuleType.custom →
      (rule.customValidatorName = none ∨
        ∃ name, rule.customValidatorName = some name ∧ env.registry name = none) →
      validateRule env v rule field fd = true)
    ∧ (∀ (env : Env) (v : Value) (rule : ValidationRule) (field : FormFieldConfig)
        (fd : FormData), rule.type = ValidationRuleType.pattern →
      (∀ p, getStringValue rule.value = some p → env.regexCompile p = none) →
      validateRule env v rule field fd = true)
    ∧ ∀ (env : Env) (field : FormFieldConfig) (value : Value) (fd : FormData)
        (path : Option String) (rules : List ValidationRule) (e : FieldValidationError),
        field.validations = some rules →
        (e ∈ validateField env field value fd path ↔
          ∃ rule ∈ rules, validateRule env value rule field fd = false ∧
            e = ⟨path.getD field.name, rule.message, ruleTypeName rule.type⟩) := by
  refine ⟨?_, ?_, ?_⟩
  · intro env v rule field fd htype hname
    simp only [validateRule, htype, validateCustom]
    rcases hname with h | ⟨name, hn, hreg⟩
    · simp [h]
    · simp [hn, hreg]
  · intro env v rule field fd htype hpat
    simp only [validateRule, htype]
    cases hs : getStringValue v <;> simp only [matchesPattern, hs]
    · simp
    · cases hp : getStringValue rule.value
      · simp
      · simp [hpat _ hp]
  · intro env field value fd path rules e hrules
    simp only [validateField, hrules, List.mem_filterMap]
    constructor
    · rintro ⟨rule, hmem, hf⟩
      cases hv : validateRule env value rule field fd
      · rw [hv] at hf
        simp only [Bool.false_eq_true, if_false, Option.some.injEq] at hf
        exact ⟨rule, hmem, hv, hf.symm⟩
      · rw [hv] at hf
        simp at hf
    · rintro ⟨rule, hmem, hv, rfl⟩
      refine ⟨rule, hmem, ?_⟩
      rw [hv]
      simp

/-- Witness for C8 at the unregistered custom rule and the empty
environment. -/
theorem c8_misconfigured_rules_fail_open_witness :
    validateRule env0 Value.vnull c8CustomRule bareField [] = true :=
  c8_misconfigured_rules_fail_open.1 env0 Value.vnull c8CustomRule bareField []
    rfl (Or.inr ⟨"nope", rfl, rfl⟩)

/-- A date-range field with a required rule whose range config marks
`toDate` optional. -/
def c7FieldOptional : FormFieldConfig :=
  { name := "period", type := .dateRange,
    validations := some [{ type := .required, message := "req" }],
    dateRangeConfig := some { toDateOptional := some true } }

/-- The same date-range field with `toDate` mandatory. -/
def c7FieldMandatory : FormFieldConfig :=
  { name := "period", type := .dateRange,
    validations := some [{ type := .required, message := "req" }],
    dateRangeConfig := some { toDateOptional := some false } }

/-- Submitted range `(fromDate: "2024-01-01", toDate: "")`. -/
def c7Value : Value :=
  .vmap [("fromDate", .vstr "2024-01-01"), ("toDate", .vstr "")]

/-- A date-range field whose validations carry no required rule. -/
def c7FieldNoRequired : FormFieldConfig :=
  { name := "period", type := .dateRange,
    validations := some [{ type := .min, value := .vnum 1, message := "m" }] }

/-- C7: with `toDateOptional = true` the range `(2024-01-01, "")` passes
and with `toDateOptional = false` it yields exactly one error at the
field path; a validation list without a required rule never yields an
error for a date-range field; and in general, with a required rule
present, the result is the single required error at the field path
exactly when `fromDate` is empty or `toDate` is empty while the range
config does not mark it optional. -/
theorem c7_daterange_required_semantics :
    validateDateRangeField env0 c7FieldOptional c7Value [] = []
    ∧ validateDateRangeField env0 c7FieldMandatory c7Value [] =
        [⟨"period", "req", "required"⟩]
    ∧ (∀ (env : Env) (field : FormFieldConfig) (value : Value) (fd : FormData)
        (vs : List ValidationRule), field.validations = some vs →
        vs.any isRequiredRule = false →
        validateDateRangeField env field value fd = [])
    ∧ ∀ (env : Env) (field : FormFieldConfig) (value : Value) (fd : FormData)
        (vs : List ValidationRule), field.validations = some vs →
        vs.any isRequiredRule = true →
        validateDateRangeField env field value fd =
          if dateRangeFromEmpty value ||
              (!(field.dateRangeConfig.bind DateRangeConfig.toDateOptional).getD false &&
                dateRangeToEmpty value) then
            [⟨field.name, requiredMessage vs, "required"⟩]
          else [] := by
  refine ⟨rfl, rfl, ?_, ?_⟩
  · intro env field value fd vs hvs hreq
    simp [validateDateRangeField, hvs, hreq]
  · intro env field value fd vs hvs hreq
    cases hdr : getDictionaryValue value <;>
      simp [validateDateRangeField, hvs, hreq, hdr, dateRangeFromEmpty,
        dateRangeToEmpty, dateRangeSub]

/-- Witness for C7's no-required clause at a min-only date-range field. -/
theorem c7_daterange_required_semantics_witness :
    validateDateRangeField env0 c7FieldNoRequired Value.vnull [] = [] :=
  c7_daterange_required_semantics.2.2.1 env0 c7FieldNoRequired Value.vnull []
    [{ type := .min, value := .vnum 1, message := "m" }] rfl (by decide)

/-- C6: for a phone field, the required rule is judged on the `number`
sub-value — when that sub-value is missing or empty the result is exactly
the required error (if configured) at the field's own path, and nothing
else; when the `number` sub-value is present and non-empty, the result is
exactly the non-required rules (custom ones included) evaluated against
that sub-value, one error at the field's own path per failing rule. -/
theorem c6_phone_rules_target_number (env : Env) (field : FormFieldConfig)
    (fd : FormData) (vs : List ValidationRule) (hvs : field.validations = some vs) :
    (∀ value, (phoneNumberValue value = none ∨
        ∃ n, phoneNumberValue value = some n ∧ isEmpty n = true) →
      validatePhoneField env field value fd =
        if vs.any isRequiredRule then
          [⟨field.name, requiredMessage vs, "required"⟩]
        else [])
    ∧ ∀ (entries : List (String × Value)) (n : Value),
        entries.lookup "number" = some n → isEmpty n = false →
        validatePhoneField env field (Value.vmap entries) fd =
          (vs.filter fun r => !isRequiredRule r).filterMap fun rule =>
            if validateRule env n rule field fd then none
            else some ⟨field.name, rule.message, ruleTypeName rule.type⟩ := by
  constructor
  · intro value hnum
    cases hpd : getDictionaryValue value
    case none => simp [validatePhoneField, hvs, hpd]
    case some m =>
      cases hlk : m.lookup "number"
      case none => simp [validatePhoneField, hvs, hpd, hlk]
      case some n =>
        rcases hnum with h | ⟨n', hn', he⟩
        · simp [phoneNumberValue, hpd, hlk] at h
        · simp only [phoneNumberValue, hpd, Option.some_bind, hlk,
            Option.some.injEq] at hn'
          subst hn'
          simp [validatePhoneField, hvs, hpd, hlk, he]
  · intro entries n hlk hne
    simp [validatePhoneField, hvs, getDictionaryValue, hlk, hne]

/-- Witness for C6 at the phone field with value `(number: "")`. -/
theorem c6_phone_rules_target_number_witness :
    validatePhoneField env0 c2PhoneField (Value.vmap [("number", Value.vstr "")]) [] =
      [⟨"phone", "req", "required"⟩] := by
  have h := (c6_phone_rules_target_number env0 c2PhoneField []
    [{ type := .required, message := "req" }] rfl).1
    (Value.vmap [("number", Value.vstr "")])
    (Or.inr ⟨Value.vstr "", rfl, rfl⟩)
  simpa using h

end DynamicForms
